import Mathlib

/-!
Verification of the AMQP link-management and device-twin core of the
azure-iot-sdk-node sources: a shallow embedding of `sender_link.ts`,
`amqp_receiver_link_fsm.ts`, `amqp_cbs.ts` and the AMQP twin client
(`AmqpTwinReceiver`), together with theorems about the state machines and
encoders they implement.

Conventions used throughout the embedding:
* user callbacks are identified by numeric ids; invoking one is recorded
  in a log instead of running code;
* JavaScript exceptions (for example `forceDetach` on a null link object)
  are modelled by an `ok : Bool` flag on the result of a step: `false`
  means the step threw and the rest of the enclosing handler was skipped;
* asynchronous completions (promise resolution of `createSender`, send
  dispositions, link attach/detach callbacks of the base AMQP client) are
  external events fed to the interpreter, reflecting the single-threaded
  cooperative scheduler of the source.
-/

namespace AmqpCbs

/-- Error values produced by the CBS agent (`amqp_cbs.ts`): the
`TimeoutError` built in `_removeExpiredPutTokens` and the
`UnauthorizedError` built in the receiver message handler. -/
inductive CbsErr where
  | timeout (numSecs : Nat)
  | unauthorized (desc : Option String)
  | linkError (code : Nat)
deriving DecidableEq, Repr

/-- `PutTokenOperation` (amqp_cbs.ts lines 25-29): completion callback,
expiration time in seconds since the epoch, and the correlation id the
response will carry. -/
structure PutTokenOperation where
  putTokenCallback : Nat
  expirationTime : Nat
  correlationId : String
deriving DecidableEq, Repr

/-- `PutTokenStatus.numberOfSecondsToTimeout` (amqp_cbs.ts line 47): a
fixed 120-second deadline shared by every put-token operation. -/
def numberOfSecondsToTimeout : Nat := 120

/-- The scan loop of `_removeExpiredPutTokens` (amqp_cbs.ts lines
256-268): repeatedly examine the head of `outstandingPutTokens`; while it
has expired, splice it off and collect it; stop at the first entry that
has not yet expired.  Returns the collected expired prefix and the
remaining list. -/
def collectExpired (currentTime : Nat) :
    List PutTokenOperation → List PutTokenOperation × List PutTokenOperation
  | [] => ([], [])
  | op :: rest =>
    if op.expirationTime < currentTime then
      let r := collectExpired currentTime rest
      (op :: r.1, r.2)
    else
      ([], op :: rest)

/-- `_removeExpiredPutTokens` (amqp_cbs.ts lines 253-279): collect the
expired prefix, invoke each collected entry's callback with a
`TimeoutError`, and re-arm the 10-second timer exactly when outstanding
entries remain.  Result: (callback invocations in order, remaining
outstanding list, timer re-armed). -/
def removeExpiredPutTokens (currentTime : Nat)
    (outstanding : List PutTokenOperation) :
    List (Nat × CbsErr) × List PutTokenOperation × Bool :=
  let r := collectExpired currentTime outstanding
  (r.1.map fun op => (op.putTokenCallback, CbsErr.timeout numberOfSecondsToTimeout),
   r.2,
   !r.2.isEmpty)

/-- The fields of a message delivered on the `$cbs` receiver link that the
handler reads: `correlationId`, the `status-code` application property and
the `status-description` application property. -/
structure CbsMsg where
  correlationId : Option String
  statusCode : Option Int
  statusDescription : Option String
deriving DecidableEq, Repr

/-- The receiver `message` handler wired in `attaching._onEnter`
(amqp_cbs.ts lines 102-126): scan `outstandingPutTokens` for the first
entry whose `correlationId` equals the message's correlation id; if found,
splice it out and invoke its callback with `null` when the `status-code`
property is 200 and with `UnauthorizedError(status-description)` otherwise,
then stop scanning; the message is accepted whether or not a match was
found.  Result: (remaining outstanding list, callback invocations,
message accepted). -/
def handleCbsResponse (msg : CbsMsg) :
    List PutTokenOperation →
    List PutTokenOperation × List (Nat × Option CbsErr) × Bool
  | [] => ([], [], true)
  | op :: rest =>
    if msg.correlationId = some op.correlationId then
      (rest,
       [(op.putTokenCallback,
         if msg.statusCode = some 200 then none
         else some (CbsErr.unauthorized msg.statusDescription))],
       true)
    else
      let r := handleCbsResponse msg rest
      (op :: r.1, r.2.1, true)

/-- On a list with monotonically non-decreasing expiration times, the
expired prefix collected by the sweep is exactly the set of expired
entries: nothing expired survives past the stopping point. -/
theorem collectExpired_eq_filter (currentTime : Nat)
    (l : List PutTokenOperation)
    (hmono : l.Pairwise fun a b => a.expirationTime ≤ b.expirationTime) :
    collectExpired currentTime l =
      (l.filter fun op => decide (op.expirationTime < currentTime),
       l.filter fun op => !decide (op.expirationTime < currentTime)) := by
  induction l with
  | nil => simp [collectExpired]
  | cons op rest ih =>
    rcases List.pairwise_cons.mp hmono with ⟨hle, hrest⟩
    by_cases hexp : op.expirationTime < currentTime
    · simp [collectExpired, hexp, ih hrest, List.filter]
    · have hnone : ∀ b ∈ rest, ¬ b.expirationTime < currentTime := by
        intro b hb
        have := hle b hb
        omega
      have h1 : rest.filter (fun op => decide (op.expirationTime < currentTime)) = [] := by
        apply List.filter_eq_nil_iff.mpr
        intro b hb
        simpa using hnone b hb
      have h2 : rest.filter (fun op => !decide (op.expirationTime < currentTime)) = rest := by
        apply List.filter_eq_self.mpr
        intro b hb
        simpa using hnone b hb
      simp [collectExpired, hexp, List.filter, h1, h2]

/-- C4: each run of the timeout sweep removes exactly the pending
put-token entries whose deadline is before the current time (the scan
stops at the first non-expired entry, which on the monotone list the code
maintains is the same thing), invokes each removed entry's callback once
with a `TimeoutError`, and re-arms the 10-second timer if and only if
pending entries remain afterwards. -/
theorem removeExpiredPutTokens_spec (currentTime : Nat)
    (outstanding : List PutTokenOperation)
    (hmono : outstanding.Pairwise fun a b => a.expirationTime ≤ b.expirationTime) :
    (removeExpiredPutTokens currentTime outstanding).1 =
      (outstanding.filter fun op => decide (op.expirationTime < currentTime)).map
        (fun op => (op.putTokenCallback, CbsErr.timeout numberOfSecondsToTimeout)) ∧
    (removeExpiredPutTokens currentTime outstanding).2.1 =
      outstanding.filter (fun op => !decide (op.expirationTime < currentTime)) ∧
    ((removeExpiredPutTokens currentTime outstanding).2.2 = true ↔
      (removeExpiredPutTokens currentTime outstanding).2.1 ≠ []) := by
  have h := collectExpired_eq_filter currentTime outstanding hmono
  refine ⟨?_, ?_, ?_⟩
  · simp [removeExpiredPutTokens, h]
  · simp [removeExpiredPutTokens, h]
  · simp [removeExpiredPutTokens, h, List.isEmpty_iff]

/-- Witness for `removeExpiredPutTokens_spec`: two pending operations with
deadlines 100 and 300, swept at time 200: exactly the first one is timed
out and the timer is re-armed. -/
theorem removeExpiredPutTokens_spec_witness :
    (removeExpiredPutTokens 200
        [⟨1, 100, "a"⟩, ⟨2, 300, "b"⟩]).1 =
      (([⟨1, 100, "a"⟩, ⟨2, 300, "b"⟩] :
          List PutTokenOperation).filter fun op => decide (op.expirationTime < 200)).map
        (fun op => (op.putTokenCallback, CbsErr.timeout numberOfSecondsToTimeout)) ∧
    (removeExpiredPutTokens 200 [⟨1, 100, "a"⟩, ⟨2, 300, "b"⟩]).2.1 =
      ([⟨1, 100, "a"⟩, ⟨2, 300, "b"⟩] :
          List PutTokenOperation).filter (fun op => !decide (op.expirationTime < 200)) ∧
    ((removeExpiredPutTokens 200 [⟨1, 100, "a"⟩, ⟨2, 300, "b"⟩]).2.2 = true ↔
      (removeExpiredPutTokens 200 [⟨1, 100, "a"⟩, ⟨2, 300, "b"⟩]).2.1 ≠ []) :=
  removeExpiredPutTokens_spec 200 [⟨1, 100, "a"⟩, ⟨2, 300, "b"⟩]
    (by simp [List.pairwise_cons])

/-- C5: for every message delivered on the CBS receiver link, the message
is accepted whether or not a matching entry exists; the first pending
entry whose correlation id matches the message (if any) is removed from
the pending list; and that entry's callback is invoked with `null` exactly
when the status-code application property is 200, and otherwise with an
`UnauthorizedError` carrying the status-description. -/
theorem handleCbsResponse_spec (msg : CbsMsg)
    (outstanding : List PutTokenOperation) :
    (handleCbsResponse msg outstanding).2.2 = true ∧
    (handleCbsResponse msg outstanding).1 =
      outstanding.eraseP (fun op => decide (msg.correlationId = some op.correlationId)) ∧
    (handleCbsResponse msg outstanding).2.1 =
      (match outstanding.find? (fun op => decide (msg.correlationId = some op.correlationId)) with
       | none => []
       | some op =>
          [(op.putTokenCallback,
            if msg.statusCode = some 200 then none
            else some (CbsErr.unauthorized msg.statusDescription))]) := by
  induction outstanding with
  | nil => simp [handleCbsResponse]
  | cons op rest ih =>
    by_cases hmatch : msg.correlationId = some op.correlationId
    · simp [handleCbsResponse, hmatch, List.eraseP_cons, List.find?_cons]
    · simp only [handleCbsResponse, if_neg hmatch]
      refine ⟨by simp, ?_, ?_⟩
      · simp [List.eraseP_cons, hmatch, ih.2.1]
      · simp [List.find?_cons, hmatch, ih.2.2]

end AmqpCbs

namespace AmqpTwin

/-- A value stored in the caller's `properties` bag, as far as the twin
request encoder inspects one: the three scalar shapes it accepts, plus
null and an opaque non-scalar object (the encoder never looks inside an
object-valued property; it only rejects it). -/
inductive PropVal where
  | pstr (s : String)
  | pnum (n : Int)
  | pbool (b : Bool)
  | pnull
  | pobj
deriving DecidableEq, Repr

/-- `util.isString` on a property value. -/
def PropVal.isString : PropVal → Bool
  | .pstr _ => true
  | _ => false

/-- `util.isNumber` on a property value. -/
def PropVal.isNumber : PropVal → Bool
  | .pnum _ => true
  | _ => false

/-- `util.isBoolean` on a property value. -/
def PropVal.isBoolean : PropVal → Bool
  | .pbool _ => true
  | _ => false

/-- JavaScript `toString()` on a property value (the encoder only reaches
it on scalar values). -/
def PropVal.toStr : PropVal → String
  | .pstr s => s
  | .pnum n => toString n
  | .pbool b => if b then "true" else "false"
  | .pnull => "null"
  | .pobj => "[object Object]"

/-- A JavaScript argument value, as far as the twin request encoder
(`AmqpTwinReceiver._sendTwinRequest`) inspects one: strings, numbers,
booleans, null/undefined, and plain objects (whose own enumerable keys are
kept in insertion order, as `Object.keys` enumerates them). -/
inductive JVal where
  | vstr (s : String)
  | vnum (n : Int)
  | vbool (b : Bool)
  | vnull
  | vobj (fields : List (String × PropVal))
deriving DecidableEq, Repr

/-- JavaScript truthiness test used by the `!method || !resource || ...`
guard: empty string, zero, `false` and `null`/`undefined` are falsy. -/
def JVal.falsy : JVal → Bool
  | .vstr s => decide (s = "")
  | .vnum n => decide (n = 0)
  | .vbool b => !b
  | .vnull => true
  | .vobj _ => false

/-- `util.isString` on an argument value. -/
def JVal.isString : JVal → Bool
  | .vstr _ => true
  | _ => false

/-- `util.isObject` (an object and not null). -/
def JVal.isObject : JVal → Bool
  | .vobj _ => true
  | _ => false

/-- JavaScript `toString()` on the argument values the encoder
stringifies. -/
def JVal.toStr : JVal → String
  | .vstr s => s
  | .vnum n => toString n
  | .vbool b => if b then "true" else "false"
  | .vnull => "null"
  | .vobj _ => "[object Object]"

/-- The own enumerable fields of an object value (empty for non-objects;
the encoder only reaches this after `util.isObject` passed). -/
def propFields : JVal → List (String × PropVal)
  | .vobj fields => fields
  | _ => []

/-- The two kinds of synchronous errors `_sendTwinRequest` throws. -/
inductive TwinErr where
  | referenceError
  | argumentError
deriving DecidableEq, Repr

/-- JavaScript object property assignment `o[k] = v` on an
insertion-ordered field list: overwrite in place if the key exists,
otherwise append. -/
def setKey {β : Type} : List (String × β) → String → β → List (String × β)
  | [], k, v => [(k, v)]
  | (k0, v0) :: rest, k, v =>
    if k0 = k then (k0, v) :: rest else (k0, v0) :: setKey rest k v

/-- The `Object.keys(properties).forEach` loop of `_sendTwinRequest`
(part_000 lines 353-366): reject non-scalar values with an
`ArgumentError`; assign the stringified value of the `$rid` key to
`properties.correlationId`; assign every other key into the
message-annotations map. -/
def applyProperties :
    List (String × PropVal) → List (String × PropVal) → List (String × String) →
    Except TwinErr (List (String × PropVal) × List (String × String))
  | [], anns, props => .ok (anns, props)
  | (k, v) :: rest, anns, props =>
    if !(v.isString || v.isNumber || v.isBoolean) then
      .error .argumentError
    else if k = "$rid" then
      applyProperties rest anns (setKey props "correlationId" v.toStr)
    else
      applyProperties rest (setKey anns k v) props

/-- The AMQP message assembled by `_sendTwinRequest`: message annotations,
the `properties` map, and the stringified body. -/
structure AmqpTwinMessage where
  messageAnnotations : List (String × PropVal)
  properties : List (String × String)
  body : String
deriving DecidableEq, Repr

/-- `AmqpTwinReceiver._sendTwinRequest` (part_000 lines 306-372), up to
handing the assembled message to `send`: validation (ReferenceError for a
falsy `method`/`resource`/`properties`/`body`, ArgumentError for a
non-string `method`/`resource` or a non-object `properties`), the
`operation` annotation, the trailing-slash trim of `resource` (the
`resource` annotation is omitted when the trimmed string is empty), the
literal-null `version` annotation for `PATCH`, the property loop, and the
stringified body. -/
def sendTwinRequestBuild (method resource properties body : JVal) :
    Except TwinErr AmqpTwinMessage :=
  if method.falsy || resource.falsy || properties.falsy || body.falsy then
    .error .referenceError
  else if !(method.isString && resource.isString) then
    .error .argumentError
  else if !properties.isObject then
    .error .argumentError
  else
    let anns0 : List (String × PropVal) := setKey [] "operation" (PropVal.pstr method.toStr)
    let rstr := resource.toStr
    let anns1 :=
      if rstr.data.length > 0 then
        let localResource :=
          if rstr.data.getLast? = some '/' then String.mk rstr.data.dropLast else rstr
        if localResource.data.length > 0 then
          setKey anns0 "resource" (PropVal.pstr localResource)
        else anns0
      else anns0
    let anns2 :=
      if method = JVal.vstr "PATCH" then setKey anns1 "version" PropVal.pnull else anns1
    match applyProperties (propFields properties) anns2 [] with
    | .error e => .error e
    | .ok (anns, props) => .ok ⟨anns, props, body.toStr⟩

theorem lookup_cons_ite {β : Type} (a k : String) (v : β) (l : List (String × β)) :
    ((k, v) :: l).lookup a = if a = k then some v else l.lookup a := by
  rw [List.lookup_cons]
  by_cases h : a = k
  · rw [if_pos h, beq_iff_eq.mpr h]
  · rw [if_neg h, beq_eq_false_iff_ne.mpr h]

theorem lookup_setKey_self {β : Type} (l : List (String × β)) (k : String) (v : β) :
    (setKey l k v).lookup k = some v := by
  induction l with
  | nil => simp [setKey, lookup_cons_ite]
  | cons kv rest ih =>
    by_cases h : kv.1 = k
    · rw [show kv = (kv.1, kv.2) from rfl, setKey, if_pos h, lookup_cons_ite,
        if_pos h.symm]
    · rw [show kv = (kv.1, kv.2) from rfl, setKey, if_neg h, lookup_cons_ite,
        if_neg (fun e => h e.symm)]
      exact ih

theorem lookup_setKey_ne {β : Type} (l : List (String × β)) (k k' : String) (v : β)
    (h : k' ≠ k) : (setKey l k v).lookup k' = l.lookup k' := by
  induction l with
  | nil => simp [setKey, lookup_cons_ite, h]
  | cons kv rest ih =>
    by_cases hk : kv.1 = k
    · have hne : ¬ k' = kv.1 := fun e => h (e.trans hk)
      rw [show kv = (kv.1, kv.2) from rfl, setKey, if_pos hk, lookup_cons_ite,
        lookup_cons_ite, if_neg hne, if_neg hne]
    · rw [show kv = (kv.1, kv.2) from rfl, setKey, if_neg hk, lookup_cons_ite,
        lookup_cons_ite, ih]

theorem mem_setKey {β : Type} (l : List (String × β)) (k : String) (v : β)
    (kv : String × β) (h : kv ∈ setKey l k v) : kv ∈ l ∨ kv.1 = k := by
  induction l with
  | nil => simp [setKey] at h; simp [h]
  | cons kv0 rest ih =>
    by_cases hk : kv0.1 = k
    · rw [show kv0 = (kv0.1, kv0.2) from rfl, setKey, if_pos hk] at h
      rcases List.mem_cons.mp h with h | h
      · right; rw [h]; exact hk
      · left; exact List.mem_cons_of_mem _ h
    · rw [show kv0 = (kv0.1, kv0.2) from rfl, setKey, if_neg hk] at h
      rcases List.mem_cons.mp h with h | h
      · left; rw [h]; exact List.mem_cons_self _ _
      · rcases ih h with h | h
        · left; exact List.mem_cons_of_mem _ h
        · right; exact h

theorem applyProperties_anns_preserved (fields : List (String × PropVal))
    (anns : List (String × PropVal)) (props : List (String × String))
    (anns' : List (String × PropVal)) (props' : List (String × String)) (k : String)
    (h : applyProperties fields anns props = .ok (anns', props'))
    (hk : k ∉ fields.map Prod.fst) :
    anns'.lookup k = anns.lookup k := by
  induction fields generalizing anns props with
  | nil =>
    simp [applyProperties] at h
    rw [h.1]
  | cons kv rest ih =>
    obtain ⟨k0, v0⟩ := kv
    simp only [applyProperties] at h
    by_cases hsc : (!(v0.isString || v0.isNumber || v0.isBoolean)) = true
    · rw [if_pos hsc] at h; exact absurd h (by simp)
    · rw [if_neg hsc] at h
      simp only [List.map_cons, List.mem_cons] at hk
      push_neg at hk
      by_cases hrid : k0 = "$rid"
      · rw [if_pos hrid] at h
        exact ih _ _ h hk.2
      · rw [if_neg hrid] at h
        rw [ih _ _ h hk.2, lookup_setKey_ne _ _ _ _ hk.1]

theorem applyProperties_props_preserved (fields : List (String × PropVal))
    (anns : List (String × PropVal)) (props : List (String × String))
    (anns' : List (String × PropVal)) (props' : List (String × String))
    (h : applyProperties fields anns props = .ok (anns', props'))
    (hrid : "$rid" ∉ fields.map Prod.fst) :
    props' = props := by
  induction fields generalizing anns props with
  | nil =>
    simp [applyProperties] at h
    exact h.2.symm
  | cons kv rest ih =>
    obtain ⟨k0, v0⟩ := kv
    simp only [applyProperties] at h
    by_cases hsc : (!(v0.isString || v0.isNumber || v0.isBoolean)) = true
    · rw [if_pos hsc] at h; exact absurd h (by simp)
    · rw [if_neg hsc] at h
      simp only [List.map_cons, List.mem_cons] at hrid
      push_neg at hrid
      rw [if_neg (Ne.symm hrid.1)] at h
      exact ih _ _ h hrid.2

theorem applyProperties_rid (fields : List (String × PropVal))
    (anns : List (String × PropVal)) (props : List (String × String))
    (anns' : List (String × PropVal)) (props' : List (String × String)) (v : PropVal)
    (h : applyProperties fields anns props = .ok (anns', props'))
    (hnodup : (fields.map Prod.fst).Nodup)
    (hmem : ("$rid", v) ∈ fields) :
    props'.lookup "correlationId" = some v.toStr := by
  induction fields generalizing anns props with
  | nil => simp at hmem
  | cons kv rest ih =>
    obtain ⟨k0, v0⟩ := kv
    simp only [applyProperties] at h
    by_cases hsc : (!(v0.isString || v0.isNumber || v0.isBoolean)) = true
    · rw [if_pos hsc] at h; exact absurd h (by simp)
    · rw [if_neg hsc] at h
      simp only [List.map_cons, List.nodup_cons] at hnodup
      rcases List.mem_cons.mp hmem with hmem | hmem
      · have hk0 : k0 = "$rid" := by
          have := congrArg Prod.fst hmem.symm
          simpa using this
        have hv0 : v0 = v := by
          have := congrArg Prod.snd hmem.symm
          simpa using this
        rw [if_pos hk0] at h
        have hnorid : "$rid" ∉ rest.map Prod.fst := hk0 ▸ hnodup.1
        rw [applyProperties_props_preserved _ _ _ _ _ h hnorid, hv0]
        exact lookup_setKey_self _ _ _
      · have hk0 : k0 ≠ "$rid" := by
          intro he
          exact hnodup.1 (he ▸ (List.mem_map_of_mem Prod.fst hmem))
        rw [if_neg hk0] at h
        exact ih _ _ h hnodup.2 hmem

theorem applyProperties_mem_anns (fields : List (String × PropVal))
    (anns : List (String × PropVal)) (props : List (String × String))
    (anns' : List (String × PropVal)) (props' : List (String × String))
    (k : String) (v : PropVal)
    (h : applyProperties fields anns props = .ok (anns', props'))
    (hnodup : (fields.map Prod.fst).Nodup)
    (hmem : (k, v) ∈ fields) (hk : k ≠ "$rid") :
    anns'.lookup k = some v := by
  induction fields generalizing anns props with
  | nil => simp at hmem
  | cons kv rest ih =>
    obtain ⟨k0, v0⟩ := kv
    simp only [applyProperties] at h
    by_cases hsc : (!(v0.isString || v0.isNumber || v0.isBoolean)) = true
    · rw [if_pos hsc] at h; exact absurd h (by simp)
    · rw [if_neg hsc] at h
      simp only [List.map_cons, List.nodup_cons] at hnodup
      rcases List.mem_cons.mp hmem with hmem | hmem
      · have hk0 : k0 = k := by
          have := congrArg Prod.fst hmem.symm
          simpa using this
        have hv0 : v0 = v := by
          have := congrArg Prod.snd hmem.symm
          simpa using this
        rw [if_neg (hk0 ▸ hk)] at h
        have hnok : k ∉ rest.map Prod.fst := hk0 ▸ hnodup.1
        rw [applyProperties_anns_preserved _ _ _ _ _ _ h hnok, hk0, hv0]
        exact lookup_setKey_self _ _ _
      · by_cases hk0 : k0 = "$rid"
        · rw [if_pos hk0] at h
          exact ih _ _ h hnodup.2 hmem
        · rw [if_neg hk0] at h
          exact ih _ _ h hnodup.2 hmem

theorem applyProperties_props_keys (fields : List (String × PropVal))
    (anns : List (String × PropVal)) (props : List (String × String))
    (anns' : List (String × PropVal)) (props' : List (String × String))
    (h : applyProperties fields anns props = .ok (anns', props')) :
    ∀ kv ∈ props', kv ∈ props ∨ kv.1 = "correlationId" := by
  induction fields generalizing anns props with
  | nil =>
    simp [applyProperties] at h
    intro kv hkv
    left; exact h.2 ▸ hkv
  | cons kv0 rest ih =>
    obtain ⟨k0, v0⟩ := kv0
    simp only [applyProperties] at h
    by_cases hsc : (!(v0.isString || v0.isNumber || v0.isBoolean)) = true
    · rw [if_pos hsc] at h; exact absurd h (by simp)
    · rw [if_neg hsc] at h
      by_cases hk0 : k0 = "$rid"
      · rw [if_pos hk0] at h
        intro kv hkv
        rcases ih _ _ h kv hkv with hkv | hkv
        · exact mem_setKey _ _ _ _ hkv
        · right; exact hkv
      · rw [if_neg hk0] at h
        exact ih _ _ h

/-- C2 counterexample: for the validated call
`sendTwinRequest("GET", "/x", \x7b foo: "bar" \x7d, "x")` the assembled
message keeps the non-`$rid` property `foo` in the message-annotations
map and leaves the `properties` map empty, so `foo` is not assigned into
the AMQP message's properties map as the claim states. -/
theorem twin_request_properties_claim_refuted :
    sendTwinRequestBuild (JVal.vstr "GET") (JVal.vstr "/x")
        (JVal.vobj [("foo", PropVal.pstr "bar")]) (JVal.vstr "x") =
      .ok ⟨[("operation", PropVal.pstr "GET"), ("resource", PropVal.pstr "/x"),
            ("foo", PropVal.pstr "bar")], [], "x"⟩ := by
  rfl

/-- C2 (amended): for every validated properties bag (distinct keys, as
JavaScript object keys are), the `$rid` property is assigned, stringified,
to the message's `properties.correlationId`, while every other key/value
pair is assigned into the message-annotations map, not the properties map
(whose only possible key is `correlationId`). -/
theorem twin_request_properties_encoding
    (method resource properties body : JVal) (m : AmqpTwinMessage)
    (hok : sendTwinRequestBuild method resource properties body = .ok m)
    (hnodup : ((propFields properties).map Prod.fst).Nodup) :
    (∀ k v, (k, v) ∈ propFields properties → k ≠ "$rid" →
        m.messageAnnotations.lookup k = some v) ∧
    (∀ v, ("$rid", v) ∈ propFields properties →
        m.properties.lookup "correlationId" = some v.toStr) ∧
    (∀ kv ∈ m.properties, kv.1 = "correlationId") := by
  simp only [sendTwinRequestBuild] at hok
  split at hok
  · exact absurd hok (by simp)
  · split at hok
    · exact absurd hok (by simp)
    · split at hok
      · exact absurd hok (by simp)
      · split at hok
        next heq => exact absurd hok (by simp)
        next anns props heq =>
          rw [Except.ok.injEq] at hok
          subst hok
          refine ⟨?_, ?_, ?_⟩
          · intro k v hmem hk
            exact applyProperties_mem_anns _ _ _ _ _ _ _ heq hnodup hmem hk
          · intro v hmem
            exact applyProperties_rid _ _ _ _ _ _ heq hnodup hmem
          · intro kv hkv
            rcases applyProperties_props_keys _ _ _ _ _ heq kv hkv with h | h
            · simp at h
            · exact h

/-- Witness for `twin_request_properties_encoding`: the PATCH request of
the spec's end-to-end scenario, with an extra non-`$rid` property. -/
theorem twin_request_properties_encoding_witness :
    (∀ k v, (k, v) ∈ propFields (JVal.vobj [("$rid", PropVal.pstr "7"), ("extra", PropVal.pnum 3)]) →
        k ≠ "$rid" →
        ([("operation", PropVal.pstr "PATCH"), ("resource", PropVal.pstr "/properties/reported"),
          ("version", PropVal.pnull), ("extra", PropVal.pnum 3)] :
            List (String × PropVal)).lookup k = some v) ∧
    (∀ v, ("$rid", v) ∈ propFields (JVal.vobj [("$rid", PropVal.pstr "7"), ("extra", PropVal.pnum 3)]) →
        ([("correlationId", "7")] : List (String × String)).lookup "correlationId" = some v.toStr) ∧
    (∀ kv ∈ ([("correlationId", "7")] : List (String × String)), kv.1 = "correlationId") := by
  have h := twin_request_properties_encoding (JVal.vstr "PATCH")
    (JVal.vstr "/properties/reported/")
    (JVal.vobj [("$rid", PropVal.pstr "7"), ("extra", PropVal.pnum 3)]) (JVal.vstr "x")
    ⟨[("operation", PropVal.pstr "PATCH"), ("resource", PropVal.pstr "/properties/reported"),
      ("version", PropVal.pnull), ("extra", PropVal.pnum 3)], [("correlationId", "7")], "x"⟩
    (by rfl) (by decide)
  exact h

end AmqpTwin

namespace SenderLink

/-- The four machina states of the `SenderLink` FSM (`sender_link.ts`
lines 51-135). -/
inductive Fsm where
  | detached
  | attaching
  | attached
  | detaching
deriving DecidableEq, Repr

/-- Errors a sender-link callback can receive: a captured attach failure
(`_attachError`), the generic `new Error('Link Detached')`, or a rejected
send disposition. -/
inductive Err where
  | attachFailure (code : Nat)
  | linkDetached
  | sendRejected (code : Nat)
deriving DecidableEq, Repr

/-- A `_messageQueue` entry: message id and callback id. -/
structure QItem where
  rid : Nat
  cb : Nat
deriving DecidableEq, Repr

/-- An FSM input (`this._fsm.handle(...)`): `attach` carries an optional
callback because `detached.send` re-handles `attach` with no argument. -/
inductive Input where
  | attach (cb : Option Nat)
  | detach
  | send (rid : Nat) (cb : Nat)
deriving DecidableEq, Repr

/-- A recorded callback invocation: callback id, error argument, whether
the invocation was scheduled with `process.nextTick` (`false` means it ran
synchronously on the current stack), and whether that stack was the
dynamic extent of a public `attach`/`detach`/`send` call (`false` means an
asynchronous completion from the AMQP client). -/
structure Inv where
  cb : Nat
  err : Option Err
  nextTick : Bool
  inPublic : Bool
deriving DecidableEq, Repr

/-- The state of a `SenderLink`: machina state, `_messageQueue`,
`_attachError`, `_attachCallback`, whether `_linkObject` is non-null,
whether a `createSender` call is outstanding, sends handed to
`_linkObject.send` whose promise has not settled, machina's queue of
inputs deferred until `detached`, the callback-invocation log, and the
number of `createSender` calls issued. -/
structure St where
  fsm : Fsm
  messageQueue : List QItem
  attachError : Option Err
  attachCallback : Option Nat
  linkObject : Bool
  pendingAttach : Bool
  inflight : List QItem
  deferred : List Input
  invocations : List Inv
  createSenderCalls : Nat
deriving DecidableEq, Repr

/-- A freshly constructed `SenderLink`: `detached`, empty queue, no link
object. -/
def st0 : St := ⟨.detached, [], none, none, false, false, [], [], [], 0⟩

/-- Record a synchronous callback invocation on the current stack. -/
def invokeCb (s : St) (inPublic : Bool) (cb : Nat) (err : Option Err) : St :=
  { s with invocations := s.invocations ++ [⟨cb, err, false, inPublic⟩] }

/-- Record a `process.nextTick` callback invocation (`_safeCallback`,
sender_link.ts lines 115-119): it runs on a later tick, outside any
public call. -/
def nextTickCb (s : St) (cb : Nat) (err : Option Err) : St :=
  { s with invocations := s.invocations ++ [⟨cb, err, true, false⟩] }

/-- `detached._onEnter` (sender_link.ts lines 55-65): if the queue is
non-empty, shift every entry off in FIFO order and invoke its callback
synchronously with `_attachError` if one is stored, else the generic
`Link Detached` error; the queue ends empty. -/
def detachedOnEnter (inPublic : Bool) (s : St) : St :=
  { s with
      messageQueue := [],
      invocations := s.invocations ++
        s.messageQueue.map fun q =>
          ⟨q.cb, some (s.attachError.getD Err.linkDetached), false, inPublic⟩ }

/-- The synchronous part of `attaching._onEnter` (lines 77-78 and
`_attachLink` lines 150-162): register the one-shot
`client:errorReceived` listener and call `createSender`; the promise is
now outstanding. -/
def attachingOnEnter (s : St) : St :=
  { s with createSenderCalls := s.createSenderCalls + 1, pendingAttach := true }

/-- `_detachLink` (sender_link.ts lines 179-182): `forceDetach` the link
object and null it.  On a null `_linkObject` this is the TypeError the
source throws. -/
def detachLink (s : St) : St × Bool :=
  if s.linkObject then ({ s with linkObject := false }, true) else (s, false)

/-- A pending activity of the machina engine: dispatching an input
(`Fsm.handle`), transitioning (`Fsm.transition`), replaying released
deferred inputs (`processQueue`), or draining the message queue
(`attached._onEnter`). -/
inductive Act where
  | handle (i : Input)
  | trans (target : Fsm)
  | replay (items : List Input)
  | drain
deriving DecidableEq, Repr

/-- The machina engine for the sender link, structurally recursive on
`fuel` so that every run reduces definitionally (out-of-fuel reports a
failed step; every theorem below supplies enough fuel).

`handle i` dispatches the input to the current state's handler table
(sender_link.ts lines 51-135); an input with no handler in the current
state is dropped (machina's `nohandler`); the `Bool` result is `false`
when the handler threw.

`trans target` is machina's `Fsm.transition`: a no-op on the current
state; otherwise run the old state's `_onExit` (only `attached` has one,
and it dereferences `_linkObject`, so it throws when the link object is
null), change state, run the new state's `_onEnter`, and finally replay
the inputs machina deferred until the new state (every
`deferUntilTransition` in this FSM names `detached`).

`replay items` re-handles the released inputs in order; an exception
aborts the remainder.

`drain` is `attached._onEnter` (lines 97-103): shift queued sends off one
at a time and re-handle each as a `send` in the new state. -/
def slGo : Nat → Bool → St → Act → St × Bool
  | 0, _, s, _ => (s, false)
  | fuel + 1, inPublic, s, act =>
    match act with
    | .handle i =>
      match s.fsm, i with
      | .detached, .attach cb =>
          slGo fuel inPublic { s with attachCallback := cb } (.trans .attaching)
      | .detached, .detach => (s, true)
      | .detached, .send rid cb =>
          slGo fuel inPublic
            { s with messageQueue := s.messageQueue ++ [⟨rid, cb⟩] } (.handle (.attach none))
      | .attaching, .attach _ => (s, true)
      | .attaching, .detach =>
          let r := slGo fuel inPublic s (.trans .detaching)
          if r.2 then
            let r2 := detachLink r.1
            if r2.2 then slGo fuel inPublic r2.1 (.trans .detached) else r2
          else r
      | .attaching, .send rid cb =>
          ({ s with messageQueue := s.messageQueue ++ [⟨rid, cb⟩] }, true)
      | .attached, .attach cb =>
          match cb with
          | some c => (invokeCb s inPublic c none, true)
          | none => (s, false)
      | .attached, .detach =>
          let r := slGo fuel inPublic s (.trans .detaching)
          if r.2 then
            let r2 := detachLink r.1
            if r2.2 then slGo fuel inPublic r2.1 (.trans .detached) else r2
          else r
      | .attached, .send rid cb =>
          if s.linkObject then
            ({ s with inflight := s.inflight ++ [⟨rid, cb⟩] }, true)
          else (s, false)
      | .detaching, j => ({ s with deferred := s.deferred ++ [j] }, true)
    | .trans target =>
      if s.fsm = target then (s, true)
      else if s.fsm = .attached ∧ s.linkObject = false then (s, false)
      else
        let s1 := { s with fsm := target }
        match target with
        | .detached =>
            let s2 := detachedOnEnter inPublic s1
            slGo fuel inPublic { s2 with deferred := [] } (.replay s2.deferred)
        | .attaching => (attachingOnEnter s1, true)
        | .attached => slGo fuel inPublic s1 .drain
        | .detaching => (s1, true)
    | .replay [] => (s, true)
    | .replay (i :: rest) =>
        let r := slGo fuel inPublic s (.handle i)
        if r.2 then slGo fuel inPublic r.1 (.replay rest) else r
    | .drain =>
      match s.messageQueue with
      | [] => (s, true)
      | q :: rest =>
          let r := slGo fuel inPublic { s with messageQueue := rest } (.handle (.send q.rid q.cb))
          if r.2 then slGo fuel inPublic r.1 .drain else r

/-- machina `Fsm.handle` entry point. -/
def slHandle (fuel : Nat) (inPublic : Bool) (s : St) (i : Input) : St × Bool :=
  slGo fuel inPublic s (.handle i)

/-- machina `Fsm.transition` entry point. -/
def slTransition (fuel : Nat) (inPublic : Bool) (s : St) (target : Fsm) : St × Bool :=
  slGo fuel inPublic s (.trans target)

/-- An external stimulus: a public API call, the settlement of the
outstanding `createSender` promise (with the captured connection error or
rejection, if any), the settlement of a `_linkObject.send` promise, or the
link object's `detached` event. -/
inductive Ev where
  | call (i : Input)
  | attachDone (err : Option Nat)
  | disposition (rid : Nat) (cb : Nat) (ok : Bool) (code : Nat)
  | peerDetached
deriving DecidableEq, Repr

/-- Apply one external event.  `attachDone` runs the `_attachLink`
completion (lines 162-176: store the link object and its listeners on
success) followed by the `attaching._onEnter` callback body (lines 78-87:
store `_attachError`, transition, then invoke and clear `_attachCallback`).
`disposition` runs the `.then`/`.catch` of `attached.send` (lines
120-128), which only schedules `_safeCallback`.  `peerDetached` runs
`_detachHandler` (lines 34-38).  Completion events with nothing
outstanding are ignored. -/
def slStep (fuel : Nat) (s : St) (e : Ev) : St × Bool :=
  match e with
  | .call i => slHandle fuel true s i
  | .attachDone err =>
      if s.pendingAttach then
        let s1 := { s with
          pendingAttach := false,
          linkObject := if err = none then true else s.linkObject,
          attachError := err.map Err.attachFailure }
        let r := slTransition fuel false s1 (if err = none then .attached else .detached)
        if r.2 then
          match r.1.attachCallback with
          | some c =>
              (invokeCb { r.1 with attachCallback := none } false c
                (err.map Err.attachFailure), true)
          | none => (r.1, true)
        else r
      else (s, true)
  | .disposition rid cb ok code =>
      if s.inflight.contains ⟨rid, cb⟩ then
        (nextTickCb { s with inflight := s.inflight.erase ⟨rid, cb⟩ } cb
          (if ok then none else some (Err.sendRejected code)), true)
      else (s, true)
  | .peerDetached =>
      if s.fsm = .attached then
        let r := slTransition fuel false s .detaching
        if r.2 then slTransition fuel false { r.1 with linkObject := false } .detached
        else r
      else (s, true)

/-- Run a list of external events, returning the final state and the
per-event outcome (`false` = that event's stack threw). -/
def slRun (fuel : Nat) : List Ev → St → St × List Bool
  | [], s => (s, [])
  | e :: rest, s =>
      let r := slStep fuel s e
      let rr := slRun fuel rest r.1
      (rr.1, r.2 :: rr.2)

/-- The interleaving that refutes the exactly-once send-callback
invariant: a send while detached, a `detach()` issued while the link is
attaching, a second send, a successful `createSender` resolution, and the
first send's fulfilled disposition. -/
def c1Trace : List Ev :=
  [.call (.send 1 10), .call .detach, .call (.send 2 20),
   .attachDone none, .disposition 1 10 true 0]

/-- C1: evaluating the sender link on `c1Trace`: the `detach()` issued
during `Attaching` throws (`_detachLink` dereferences the null
`_linkObject`, the second outcome is `false`) and leaves the machine in
`Detaching`; the second send is accepted (outcome `true`) and deferred
until `detached`; the attach then succeeds, so the machine reaches
`Attached` and the deferred send is stranded: with no completion
outstanding (`pendingAttach = false`, `inflight = []`), callback 20 was
invoked zero times while callback 10 was invoked once — the claimed
exactly-once invariant fails on this interleaving. -/
theorem sender_send_callback_stranded :
    slRun 12 c1Trace st0 =
      (⟨.attached, [], none, none, true, false, [], [.send 2 20],
        [⟨10, none, true, false⟩], 1⟩,
       [true, false, true, true, true]) := by
  decide

/-- C6: whenever the sender-link machine enters `Detached` (from any other
state whose exit handler does not itself throw, with no inputs pending
replay), every queued request's callback is invoked synchronously in FIFO
order with the stored attach error if one was recorded and the generic
`Link Detached` error otherwise, and the message queue is left empty. -/
theorem sender_detached_entry_flushes_queue (fuel : Nat) (inPublic : Bool)
    (s : St) (hne : s.fsm ≠ .detached)
    (hlink : s.fsm = .attached → s.linkObject = true)
    (hdef : s.deferred = []) :
    slTransition (fuel + 2) inPublic s .detached =
      ({ s with
          fsm := .detached,
          messageQueue := [],
          invocations := s.invocations ++
            s.messageQueue.map fun q =>
              ⟨q.cb, some (s.attachError.getD Err.linkDetached), false, inPublic⟩ }, true) := by
  have hguard : ¬ (s.fsm = .attached ∧ s.linkObject = false) := by
    rintro ⟨h1, h2⟩
    have h3 := hlink h1
    rw [h3] at h2
    exact absurd h2 (by decide)
  simp only [slTransition, slGo, if_neg hne, if_neg hguard, detachedOnEnter, hdef]

/-- Witness for `sender_detached_entry_flushes_queue`: an attach failure
flushing a two-element queue with the stored attach error, in FIFO
order. -/
theorem sender_detached_entry_flushes_queue_witness :
    slTransition 5 false
        ⟨.attaching, [⟨1, 5⟩, ⟨2, 6⟩], some (Err.attachFailure 3), none,
         false, true, [], [], [], 1⟩ .detached =
      (⟨.detached, [], some (Err.attachFailure 3), none, false, true, [],
        [],
        [⟨5, some (Err.attachFailure 3), false, false⟩,
         ⟨6, some (Err.attachFailure 3), false, false⟩], 1⟩, true) := by
  have h := sender_detached_entry_flushes_queue 5 false
    ⟨.attaching, [⟨1, 5⟩, ⟨2, 6⟩], some (Err.attachFailure 3), none,
     false, true, [], [], [], 1⟩
    (by decide) (by decide) (by decide)
  simpa using h

/-- The interleaving that refutes the never-synchronous-callback claim: a
successful attach, then a second `attach(cb)` on the already-attached
link, whose callback runs synchronously inside the public `attach` call. -/
def c9Trace : List Ev :=
  [.call (.attach (some 1)), .attachDone none, .call (.attach (some 2))]

/-- C9 counterexample: running `c9Trace`, callback 2 is invoked with
`nextTick = false` and `inPublic = true`: a user-facing attach callback
invoked synchronously within the dynamic extent of the public `attach`
call, contradicting the claim that every user-facing callback is
scheduled to a later scheduler tick. -/
theorem sender_sync_callback_in_public_call :
    (slRun 10 c9Trace st0).1.invocations =
      [⟨1, none, false, false⟩, ⟨2, none, false, true⟩] := by
  decide

/-- In a state that is `detached` or `attaching` with no link object (the
only shapes those states are entered with), dispatching any input invokes
no callback, cannot produce a link object, and either completes in such a
state again or throws. -/
theorem slGo_handle_cold (fuel : Nat) (inPublic : Bool) (s : St) (i : Input)
    (hfsm : s.fsm = .detached ∨ s.fsm = .attaching) (hlink : s.linkObject = false) :
    (slGo fuel inPublic s (.handle i)).1.invocations = s.invocations ∧
    (slGo fuel inPublic s (.handle i)).1.linkObject = false ∧
    ((slGo fuel inPublic s (.handle i)).2 = true →
      ((slGo fuel inPublic s (.handle i)).1.fsm = .detached ∨
       (slGo fuel inPublic s (.handle i)).1.fsm = .attaching)) := by
  induction fuel generalizing s i with
  | zero =>
    refine ⟨rfl, hlink, ?_⟩
    intro h
    simp [slGo] at h
  | succ fuel ih =>
    rcases hfsm with hfsm | hfsm
    · cases i with
      | attach cb =>
        cases fuel with
        | zero => simp [slGo, hfsm, hlink]
        | succ fuel =>
          simp [slGo, hfsm, hlink, attachingOnEnter]
      | detach => simp [slGo, hfsm, hlink]
      | send rid cb =>
        have h := ih { s with messageQueue := s.messageQueue ++ [⟨rid, cb⟩] }
          (.attach none) (Or.inl hfsm) hlink
        simpa [slGo, hfsm] using h
    · cases i with
      | attach cb => simp [slGo, hfsm, hlink]
      | detach =>
        cases fuel with
        | zero => simp [slGo, hfsm, hlink]
        | succ fuel =>
          simp [slGo, hfsm, hlink, detachLink]
      | send rid cb => simp [slGo, hfsm, hlink]

/-- Replaying any list of deferred inputs from a `detached` or `attaching`
state with no link object invokes no callback. -/
theorem slGo_replay_cold (fuel : Nat) (inPublic : Bool) (s : St) (items : List Input)
    (hfsm : s.fsm = .detached ∨ s.fsm = .attaching) (hlink : s.linkObject = false) :
    (slGo fuel inPublic s (.replay items)).1.invocations = s.invocations := by
  induction fuel generalizing s items with
  | zero => rfl
  | succ fuel ih =>
    cases items with
    | nil => rfl
    | cons i rest =>
      have h := slGo_handle_cold fuel inPublic s i hfsm hlink
      by_cases hok : (slGo fuel inPublic s (.handle i)).2 = true
      · have h2 := ih (slGo fuel inPublic s (.handle i)).1 rest (h.2.2 hok) h.2.1
        simp only [slGo, hok, if_true]
        rw [h2, h.1]
      · simp only [slGo, hok, if_false, Bool.false_eq_true]
        simpa [hok] using h.1

/-- C9 (amended): per-send disposition callbacks are always scheduled
with `process.nextTick`, and the public `send` and `detach` calls never
invoke a user callback synchronously within their dynamic extent (under
the shape invariants of reachable states: an attached link has a drained
queue and a non-null link object, an attaching link has a null link
object); a public `attach` on a detached link invokes none either.  The
one exception — exhibited by `sender_sync_callback_in_public_call` — is a
public `attach` on an already-attached link, whose callback runs on the
caller's stack. -/
theorem sender_callbacks_deferred_outside_attach (fuel : Nat) (s : St)
    (rid cb code : Nat) (ok : Bool)
    (hq : s.fsm = .attached → (s.messageQueue = [] ∧ s.linkObject = true))
    (hatt : s.fsm = .attaching → s.linkObject = false) :
    (slHandle (fuel + 3) true s (.send rid cb)).1.invocations = s.invocations ∧
    (slHandle (fuel + 3) true s .detach).1.invocations = s.invocations ∧
    (∀ inv, inv ∈ (slStep (fuel + 3) s (.disposition rid cb ok code)).1.invocations →
        inv ∈ s.invocations ∨ inv.nextTick = true) ∧
    (s.fsm = .detached →
        (slHandle (fuel + 3) true s (.attach (some cb))).1.invocations = s.invocations) := by
  obtain ⟨f, q, ae, ac, lo, pa, inf, defr, invs, csc⟩ := s
  refine ⟨?_, ?_, ?_, ?_⟩
  · cases f with
    | detached => simp [slHandle, slGo, attachingOnEnter]
    | attaching => simp [slHandle, slGo]
    | attached => cases lo <;> simp [slHandle, slGo]
    | detaching => simp [slHandle, slGo]
  · cases f with
    | detached => simp [slHandle, slGo]
    | attaching =>
      have hl : lo = false := hatt rfl
      subst hl
      simp [slHandle, slGo, detachLink]
    | attached =>
      obtain ⟨hq0, hl⟩ := hq rfl
      have hq0' : q = [] := hq0
      have hl' : lo = true := hl
      subst hq0'
      subst hl'
      exact (slGo_replay_cold (fuel + 1) true
        ⟨.detached, [], ae, ac, false, pa, inf, [], invs ++ [], csc⟩ defr
        (Or.inl rfl) rfl).trans (List.append_nil invs)
    | detaching => simp [slHandle, slGo]
  · intro inv hmem
    by_cases hc : inf.contains (⟨rid, cb⟩ : QItem) = true
    · simp only [slStep, hc, if_true, nextTickCb] at hmem
      rcases List.mem_append.mp hmem with h | h
      · exact Or.inl h
      · right
        simp only [List.mem_singleton] at h
        rw [h]
    · simp only [slStep, hc, if_false] at hmem
      exact Or.inl hmem
  · intro hs
    cases f with
    | detached => simp [slHandle, slGo, attachingOnEnter]
    | attaching => simp at hs
    | attached => simp at hs
    | detaching => simp at hs

/-- Witness for `sender_callbacks_deferred_outside_attach`: the freshly
constructed (detached) sender link. -/
theorem sender_callbacks_deferred_outside_attach_witness :
    (slHandle 3 true st0 (.send 1 2)).1.invocations = st0.invocations ∧
    (slHandle 3 true st0 .detach).1.invocations = st0.invocations ∧
    (∀ inv, inv ∈ (slStep 3 st0 (.disposition 1 2 true 0)).1.invocations →
        inv ∈ st0.invocations ∨ inv.nextTick = true) ∧
    (st0.fsm = .detached →
        (slHandle 3 true st0 (.attach (some 2))).1.invocations = st0.invocations) :=
  sender_callbacks_deferred_outside_attach 0 st0 1 2 0 true
    (by decide) (by decide)

end SenderLink

namespace ReceiverLink

/-- The four machina states of the receiver-link FSM
(`amqp_receiver_link_fsm.ts` lines 46-110). -/
inductive Fsm where
  | detached
  | attaching
  | attached
  | detaching
deriving DecidableEq, Repr

/-- The state of an `AmqpReceiverLinkFsm`, restricted to what the
`attach` input touches: machina state, whether `_linkObject` is non-null,
the stored `_attachCallback`, the machina queue of deferred inputs (the
`'*'` handlers of `detached`/`attaching` defer until `attached`, that of
`detaching` until `detached`), the callback-invocation log (callback id
and whether an error was passed), and the number of `createReceiver`
calls issued. -/
structure St where
  fsm : Fsm
  linkObject : Bool
  attachCallback : Option Nat
  deferred : List (Option Nat)
  invocations : List (Nat × Bool)
  createReceiverCalls : Nat
deriving DecidableEq, Repr

/-- Dispatch of the `attach` input by the receiver FSM
(amqp_receiver_link_fsm.ts lines 49-108): `detached.attach` stores the
callback and transitions to `attaching`, whose `_onEnter` starts
`_attachLink` (one `createReceiver` call); in `attaching` and `detaching`
the input is deferred by the `'*'` handlers; `attached.attach` invokes the
callback immediately with no error. -/
def handleAttach (s : St) (cb : Option Nat) : St × Bool :=
  match s.fsm with
  | .detached =>
      ({ s with attachCallback := cb, fsm := .attaching,
                createReceiverCalls := s.createReceiverCalls + 1 }, true)
  | .attaching => ({ s with deferred := s.deferred ++ [cb] }, true)
  | .attached =>
      match cb with
      | some c => ({ s with invocations := s.invocations ++ [(c, false)] }, true)
      | none => (s, false)
  | .detaching => ({ s with deferred := s.deferred ++ [cb] }, true)

end ReceiverLink

namespace CbsAgent

open AmqpCbs

/-- The four machina states of the `ClaimsBasedSecurityAgent` FSM
(`amqp_cbs.ts` lines 67-219). -/
inductive Fsm where
  | detached
  | attaching
  | attached
  | detaching
deriving DecidableEq, Repr

/-- An FSM input.  `putToken` carries, besides the handler arguments, the
environment the handler samples: the current time in seconds
(`Math.round(Date.now() / 1000)`) and the fresh `uuid.v4()` message id. -/
inductive Input where
  | attach (cb : Nat)
  | detach
  | putToken (audience : String) (token : String) (cb : Nat) (now : Nat) (newId : String)
deriving DecidableEq, Repr

/-- The state of a `ClaimsBasedSecurityAgent`: machina state, the stored
`_attachCallback`, the `senderAttached`/`receiverAttached` locals of
`attaching._onEnter`, the outstanding attach calls on the two owned
links, counters of link attach/detach calls issued, how many times the
receiver `message` handler was registered, the `outstandingPutTokens`
list with its timer, sends in flight on the sender link (message id and
put-token callback), the machina deferred-input queue (all until
`detached`), the callback-invocation log, and the number of messages
accepted on the receiver link. -/
structure St where
  fsm : Fsm
  attachCallback : Option Nat
  senderAttachedFlag : Bool
  receiverAttachedFlag : Bool
  pendingSenderAttach : Bool
  pendingReceiverAttach : Bool
  senderAttachCalls : Nat
  receiverAttachCalls : Nat
  messageWireCount : Nat
  senderDetachCalls : Nat
  receiverDetachCalls : Nat
  outstandingPutTokens : List PutTokenOperation
  timerArmed : Bool
  pendingSends : List (String × Nat)
  deferred : List Input
  invocations : List (Nat × Option CbsErr)
  accepted : Nat
deriving DecidableEq, Repr

/-- A freshly constructed agent: `detached`, nothing outstanding. -/
def cbs0 : St :=
  ⟨.detached, none, false, false, false, false, 0, 0, 0, 0, 0, [], false, [], [], [], 0⟩

/-- A pending activity of the machina engine for the agent. -/
inductive Act where
  | handle (i : Input)
  | trans (target : Fsm)
  | replay (items : List Input)
deriving DecidableEq, Repr

/-- The machina engine for the CBS agent, structurally recursive on
`fuel`.

`handle i` dispatches to the current state's handler table (amqp_cbs.ts
lines 67-219): `detached` only handles `attach` (line 71; `detach` and
`putToken` have no handler there and are dropped), `attaching` handles
nothing (every input is dropped), `attached` handles `attach` (invoke the
callback, line 142), `detach` (transition to `detaching`, line 143) and
`putToken` (lines 144-208: record a `PutTokenOperation` expiring 120 s
from now, start the 10-second timer when it is the first outstanding
entry, and hand the message to the sender link), and `detaching` defers
everything until `detached` (line 216).

`trans target` is machina's transition: `attaching._onEnter` resets the
two attached locals and calls `attach` on both owned links (lines 77-79);
`attached._onEnter` invokes and clears the stored attach callback (lines
135-140); `detaching._onEnter` calls `detach` on both links and
immediately transitions to `detached` (lines 211-214); entering
`detached` replays the deferred inputs. -/
def cbsGo : Nat → St → Act → St × Bool
  | 0, s, _ => (s, false)
  | fuel + 1, s, act =>
    match act with
    | .handle i =>
      match s.fsm, i with
      | .detached, .attach cb =>
          cbsGo fuel { s with attachCallback := some cb } (.trans .attaching)
      | .detached, .detach => (s, true)
      | .detached, .putToken _ _ _ _ _ => (s, true)
      | .attaching, _ => (s, true)
      | .attached, .attach cb =>
          ({ s with invocations := s.invocations ++ [(cb, none)] }, true)
      | .attached, .detach => cbsGo fuel s (.trans .detaching)
      | .attached, .putToken _ _ cb now newId =>
          let op : PutTokenOperation := ⟨cb, now + numberOfSecondsToTimeout, newId⟩
          let outstanding := s.outstandingPutTokens ++ [op]
          ({ s with
              outstandingPutTokens := outstanding,
              timerArmed := if outstanding.length = 1 then true else s.timerArmed,
              pendingSends := s.pendingSends ++ [(newId, cb)] }, true)
      | .detaching, j => ({ s with deferred := s.deferred ++ [j] }, true)
    | .trans target =>
      if s.fsm = target then (s, true)
      else
        let s1 := { s with fsm := target }
        match target with
        | .detached =>
            cbsGo fuel { s1 with deferred := [] } (.replay s1.deferred)
        | .attaching =>
            ({ s1 with
                senderAttachedFlag := false,
                receiverAttachedFlag := false,
                pendingSenderAttach := true,
                pendingReceiverAttach := true,
                senderAttachCalls := s1.senderAttachCalls + 1,
                receiverAttachCalls := s1.receiverAttachCalls + 1 }, true)
        | .attached =>
            match s1.attachCallback with
            | some c =>
                ({ s1 with attachCallback := none,
                           invocations := s1.invocations ++ [(c, none)] }, true)
            | none => (s1, true)
        | .detaching =>
            cbsGo fuel
              { s1 with
                  senderDetachCalls := s1.senderDetachCalls + 1,
                  receiverDetachCalls := s1.receiverDetachCalls + 1 }
              (.trans .detached)
    | .replay [] => (s, true)
    | .replay (i :: rest) =>
        let r := cbsGo fuel s (.handle i)
        if r.2 then cbsGo fuel r.1 (.replay rest) else r

/-- The scan of the sender-link send completion (amqp_cbs.ts lines
192-206): walk `outstandingPutTokens` from the tail and remove the first
entry (from the tail) whose correlation id matches. -/
def removeFromTail (corrId : String) :
    List PutTokenOperation → Option (PutTokenOperation × List PutTokenOperation)
  | [] => none
  | op :: rest =>
    match removeFromTail corrId rest with
    | some (found, rest') => some (found, op :: rest')
    | none => if op.correlationId = corrId then some (op, rest) else none

/-- An external stimulus at the agent boundary: a public call (`attach`
or a validated `putToken` routed through the FSM), the public `detach`
(which the source routes to the `attach` FSM input, line 227), the
completions of the two link attaches, the completion of a sender-link
send, a message on the receiver link, and the 10-second timer. -/
inductive Ev where
  | call (i : Input)
  | callDetach (cb : Nat)
  | senderAttachDone (err : Option Nat)
  | receiverAttachDone (err : Option Nat)
  | sendDone (corrId : String) (err : Option Nat)
  | message (msg : CbsMsg)
  | timerFire (now : Nat)
deriving DecidableEq, Repr

/-- The public `detach(callback)` method (amqp_cbs.ts lines 226-228): it
invokes `this._fsm.handle('attach', callback)`. -/
def cbsDetach (fuel : Nat) (s : St) (cb : Nat) : St × Bool :=
  cbsGo fuel s (.handle (.attach cb))

/-- Apply one external event.  The attach completions run the callbacks
wired in `attaching._onEnter` (lines 80-131): on error, transition to
`detaching` and invoke the stored attach callback with the error (the
sender branch transitions before reading the callback, the receiver
branch captures it first); on success, set the corresponding local and
transition to `attached` once both are set (the receiver branch also
registers the `message` handler).  `sendDone` runs the sender-link send
callback of `putToken` (lines 184-207), which — with no guard on the
error — removes the entry from the tail scan, stops the timer when
nothing is left outstanding, and invokes the put-token callback with the
send outcome.  `message` runs the receiver handler embedded as
`handleCbsResponse`; `timerFire` runs `_removeExpiredPutTokens`. -/
def cbsStep (fuel : Nat) (s : St) (e : Ev) : St × Bool :=
  match e with
  | .call i => cbsGo fuel s (.handle i)
  | .callDetach cb => cbsDetach fuel s cb
  | .senderAttachDone err =>
      if s.pendingSenderAttach then
        let s1 := { s with pendingSenderAttach := false }
        match err with
        | some e =>
            let r := cbsGo fuel s1 (.trans .detaching)
            if r.2 then
              match r.1.attachCallback with
              | some c =>
                  ({ r.1 with
                      attachCallback := none,
                      invocations := r.1.invocations ++ [(c, some (CbsErr.linkError e))] }, true)
              | none => (r.1, false)
            else r
        | none =>
            let s2 := { s1 with senderAttachedFlag := true }
            if s2.senderAttachedFlag ∧ s2.receiverAttachedFlag then
              cbsGo fuel s2 (.trans .attached)
            else (s2, true)
      else (s, true)
  | .receiverAttachDone err =>
      if s.pendingReceiverAttach then
        let s1 := { s with pendingReceiverAttach := false }
        match err with
        | some e =>
            let cb := s1.attachCallback
            let r := cbsGo fuel { s1 with attachCallback := none } (.trans .detaching)
            if r.2 then
              match cb with
              | some c =>
                  ({ r.1 with
                      invocations := r.1.invocations ++ [(c, some (CbsErr.linkError e))] }, true)
              | none => (r.1, false)
            else r
        | none =>
            let s2 := { s1 with
                receiverAttachedFlag := true,
                messageWireCount := s1.messageWireCount + 1 }
            if s2.senderAttachedFlag ∧ s2.receiverAttachedFlag then
              cbsGo fuel s2 (.trans .attached)
            else (s2, true)
      else (s, true)
  | .sendDone corrId err =>
      if s.pendingSends.any (fun p => p.1 = corrId) then
        let s1 := { s with
          pendingSends := s.pendingSends.eraseP (fun p => decide (p.1 = corrId)) }
        match removeFromTail corrId s1.outstandingPutTokens with
        | some (op, rest) =>
            ({ s1 with
                outstandingPutTokens := rest,
                timerArmed := if rest.isEmpty then false else s1.timerArmed,
                invocations := s1.invocations ++
                  [(op.putTokenCallback, err.map CbsErr.linkError)] }, true)
        | none => (s1, true)
      else (s, true)
  | .message msg =>
      if s.messageWireCount ≥ 1 then
        let r := handleCbsResponse msg s.outstandingPutTokens
        ({ s with
            outstandingPutTokens := r.1,
            invocations := s.invocations ++ r.2.1,
            accepted := s.accepted + 1 }, true)
      else (s, true)
  | .timerFire now =>
      if s.timerArmed then
        let r := removeExpiredPutTokens now s.outstandingPutTokens
        ({ s with
            outstandingPutTokens := r.2.1,
            timerArmed := r.2.2,
            invocations := s.invocations ++ r.1.map (fun p => (p.1, some p.2)) }, true)
      else (s, true)

/-- Run a list of external events against the agent. -/
def cbsRun (fuel : Nat) : List Ev → St → St × List Bool
  | [], s => (s, [])
  | e :: rest, s =>
      let r := cbsStep fuel s e
      let rr := cbsRun fuel rest r.1
      (rr.1, r.2 :: rr.2)

/-- C3: invoking the public `detach(done)` on an Attached CbsAgent does
not reach `Detached`: the call is routed to the `attach` FSM input, so
the attached-state `attach` handler runs — `done` is invoked with no
error, the machina state stays `attached`, and neither the sender nor the
receiver link receives a `detach` call.  The record equality keeps every
other field (including both detach-call counters) unchanged. -/
theorem cbs_detach_stays_attached (fuel : Nat) (s : St) (cb : Nat)
    (h : s.fsm = .attached) :
    cbsDetach (fuel + 1) s cb =
      ({ s with invocations := s.invocations ++ [(cb, none)] }, true) := by
  obtain ⟨f, ac, sf, rf, psa, pra, sac, rac, mwc, sdc, rdc, opt, ta, ps, defr, invs, acc⟩ := s
  have hf : f = .attached := h
  subst hf
  rfl

/-- Witness for `cbs_detach_stays_attached`: an agent that reached
`attached` through both link attaches, then receives `detach(42)`. -/
theorem cbs_detach_stays_attached_witness :
    cbsDetach 5
        ⟨.attached, none, true, true, false, false, 1, 1, 1, 0, 0, [], false, [], [], [(7, none)], 0⟩
        42 =
      (⟨.attached, none, true, true, false, false, 1, 1, 1, 0, 0, [], false, [], [],
        [(7, none), (42, none)], 0⟩, true) := by
  have h := cbs_detach_stays_attached 4
    ⟨.attached, none, true, true, false, false, 1, 1, 1, 0, 0, [], false, [], [], [(7, none)], 0⟩
    42 rfl
  simpa using h

end CbsAgent

/-- C10: calling `attach(callback)` on an already-attached SenderLink,
ReceiverLink, or CbsAgent invokes the callback with no error, leaves the
machina state (and every other field of the machine) unchanged, and
issues no new `createSender`/`createReceiver` call — each record equality
keeps the respective create-call counter and state untouched, extending
only the invocation log. -/
theorem attach_idempotent_when_attached (fuel : Nat)
    (s : SenderLink.St) (r : ReceiverLink.St) (c : CbsAgent.St) (cb : Nat)
    (hs : s.fsm = .attached) (hr : r.fsm = .attached) (hc : c.fsm = .attached) :
    SenderLink.slHandle (fuel + 1) true s (.attach (some cb)) =
      ({ s with invocations := s.invocations ++ [⟨cb, none, false, true⟩] }, true) ∧
    ReceiverLink.handleAttach r (some cb) =
      ({ r with invocations := r.invocations ++ [(cb, false)] }, true) ∧
    CbsAgent.cbsGo (fuel + 1) c (.handle (.attach cb)) =
      ({ c with invocations := c.invocations ++ [(cb, none)] }, true) := by
  refine ⟨?_, ?_, ?_⟩
  · obtain ⟨f, q, ae, ac, lo, pa, inf, defr, invs, csc⟩ := s
    have hf : f = .attached := hs
    subst hf
    rfl
  · obtain ⟨f, lo, ac, defr, invs, crc⟩ := r
    have hf : f = .attached := hr
    subst hf
    rfl
  · obtain ⟨f, ac, sf, rf, psa, pra, sac, rac, mwc, sdc, rdc, opt, ta, ps, defr, invs, acc⟩ := c
    have hf : f = .attached := hc
    subst hf
    rfl

/-- Witness for `attach_idempotent_when_attached`: concrete attached
instances of all three machines. -/
theorem attach_idempotent_when_attached_witness :
    SenderLink.slHandle 3 true
        ⟨.attached, [], none, none, true, false, [], [], [], 1⟩ (.attach (some 9)) =
      (⟨.attached, [], none, none, true, false, [], [], [⟨9, none, false, true⟩], 1⟩, true) ∧
    ReceiverLink.handleAttach ⟨.attached, true, none, [], [], 1⟩ (some 9) =
      (⟨.attached, true, none, [], [(9, false)], 1⟩, true) ∧
    CbsAgent.cbsGo 3
        ⟨.attached, none, true, true, false, false, 1, 1, 1, 0, 0, [], false, [], [], [], 0⟩
        (.handle (.attach 9)) =
      (⟨.attached, none, true, true, false, false, 1, 1, 1, 0, 0, [], false, [], [],
        [(9, none)], 0⟩, true) := by
  have h := attach_idempotent_when_attached 2
    ⟨.attached, [], none, none, true, false, [], [], [], 1⟩
    ⟨.attached, true, none, [], [], 1⟩
    ⟨.attached, none, true, true, false, false, 1, 1, 1, 0, 0, [], false, [], [], [], 0⟩
    9 rfl rfl rfl
  simpa using h

namespace TwinClient

open AmqpTwin

/-- The four machina states of the `AmqpTwinReceiver` FSM (part_000
lines 90-214). -/
inductive Fsm where
  | disconnected
  | connecting
  | connected
  | disconnecting
deriving DecidableEq, Repr

/-- The event names the twin client's listener bookkeeping
distinguishes. -/
inductive EventName where
  | response
  | post
  | other
deriving DecidableEq, Repr

/-- An FSM input of the twin client. -/
inductive Input where
  | newListener (e : EventName)
  | removeListener (e : EventName)
  | sendTwin (method resource properties body : JVal) (cb : Option Nat)
  | downstreamDetach
deriving DecidableEq, Repr

/-- What a twin-client step can throw: one of the `_sendTwinRequest`
validation errors, or a TypeError from dereferencing a null link. -/
inductive Thrown where
  | twinErr (e : TwinErr)
  | typeError
deriving DecidableEq, Repr

/-- An event emitted on the twin client's `EventEmitter` surface. -/
inductive Emit where
  | errorEvent
  | errorReceived (err : Option Nat)
  | subscribed (e : EventName)
deriving DecidableEq, Repr

/-- The fresh `uuid.v4()` strings, modelled as a counter. -/
def freshId (n : Nat) : String := "uuid-" ++ toString n

/-- The state of an `AmqpTwinReceiver`: machina state, listener counts
for `response` and `post`, whether the downstream (receiver) and
upstream (sender) links are attached, in-flight attach and detach calls
on the base AMQP client with their call counters, whether
`_boundMessageHandler` is installed on the downstream link, the uuid
counter with the last channel-correlation-id, `_internalOperations`
(correlation id, and whether its continuation emits `subscribed`),
messages handed to the upstream link's `send`, the machina queue of
inputs deferred until `connected`, the log of emitted events, and the
ordered log of states entered. -/
structure St where
  fsm : Fsm
  respListeners : Nat
  postListeners : Nat
  downstreamLink : Bool
  upstreamLink : Bool
  pendingReceiverAttach : Bool
  pendingSenderAttach : Bool
  receiverAttachCalls : Nat
  senderAttachCalls : Nat
  senderDetachCalls : Nat
  receiverDetachCalls : Nat
  pendingSenderDetach : Bool
  pendingReceiverDetach : Bool
  msgHandlerWired : Bool
  uuidCtr : Nat
  channelCorrelationId : Option String
  internalOps : List (String × Bool)
  pendingUpstreamSends : List (AmqpTwinMessage × Option Nat)
  deferred : List Input
  emitted : List Emit
  visited : List Fsm
deriving DecidableEq, Repr

/-- A freshly constructed twin client: `disconnected`, no listeners, no
links. -/
def tw0 : St :=
  ⟨.disconnected, 0, 0, false, false, false, false, 0, 0, 0, 0, false, false,
   false, 0, none, [], [], [], [], []⟩

/-- A pending activity of the machina engine for the twin client. -/
inductive Act where
  | handle (i : Input)
  | trans (target : Fsm)
  | replay (items : List Input)
deriving DecidableEq, Repr

/-- The machina engine for the twin client, structurally recursive on
`fuel`; the second component is the exception propagating out of the
step, if any.

`handle i` dispatches to the current state's handler table (part_000
lines 93-213): `disconnected` defers `handleNewListener` (for
`response`/`post`) and `sendTwinRequest` until `connected` and
transitions to `connecting`; `connecting` and `disconnecting` defer all
three until `connected` (`handleDownstreamLinkDetach` has no handler
there and is dropped); `connected` emits `subscribed` for a new
`response` listener, starts the PUT/DELETE notification requests with a
fresh correlation id for `post` subscription churn, runs
`_sendTwinRequest` (validation then handing the assembled message to the
upstream link) for `sendTwinRequest`, and transitions to `disconnecting`
on a downstream-link detach.

`trans target` is machina's transition: `disconnected._onEnter`
immediately re-enters `connecting` when any `response`/`post` listener
remains (lines 95-99); `connecting._onEnter` picks the fresh
channel-correlation-id, stamps it into both link options, and attaches
the receiver link (lines 118-122); `connected._onEnter` installs
`_boundMessageHandler` and machina then replays the inputs deferred
until `connected`; `connected._onExit` removes the handler;
`disconnecting._onEnter` starts detaching the sender link (the receiver
detach is issued in its completion callback) and immediately transitions
to `disconnected` (lines 190-201). -/
def twGo : Nat → St → Act → St × Option Thrown
  | 0, s, _ => (s, some .typeError)
  | fuel + 1, s, act =>
    match act with
    | .handle i =>
      match s.fsm, i with
      | .disconnected, .newListener e =>
          if e = .response ∨ e = .post then
            twGo fuel { s with deferred := s.deferred ++ [Input.newListener e] }
              (.trans .connecting)
          else (s, none)
      | .disconnected, .removeListener _ => (s, none)
      | .disconnected, .sendTwin m r p b cb =>
          twGo fuel { s with deferred := s.deferred ++ [Input.sendTwin m r p b cb] }
            (.trans .connecting)
      | .disconnected, .downstreamDetach => (s, none)
      | .connecting, .downstreamDetach => (s, none)
      | .connecting, j => ({ s with deferred := s.deferred ++ [j] }, none)
      | .connected, .newListener e =>
          match e with
          | .response => ({ s with emitted := s.emitted ++ [.subscribed .response] }, none)
          | .post =>
              let newId := freshId s.uuidCtr
              twGo fuel
                { s with uuidCtr := s.uuidCtr + 1,
                         internalOps := s.internalOps ++ [(newId, true)] }
                (.handle (.sendTwin (JVal.vstr "PUT")
                  (JVal.vstr "/notifications/twin/properties/desired")
                  (JVal.vobj [("$rid", PropVal.pstr newId)]) (JVal.vstr " ") none))
          | .other => (s, none)
      | .connected, .removeListener e =>
          if e = .post ∧ s.postListeners = 0 then
            let newId := freshId s.uuidCtr
            twGo fuel
              { s with uuidCtr := s.uuidCtr + 1,
                       internalOps := s.internalOps ++ [(newId, false)] }
              (.handle (.sendTwin (JVal.vstr "DELETE")
                (JVal.vstr "/notifications/twin/properties/desired")
                (JVal.vobj [("$rid", PropVal.pstr newId)]) (JVal.vstr " ") none))
          else (s, none)
      | .connected, .sendTwin m r p b cb =>
          match sendTwinRequestBuild m r p b with
          | .error e => (s, some (.twinErr e))
          | .ok msg =>
              if s.upstreamLink then
                ({ s with pendingUpstreamSends := s.pendingUpstreamSends ++ [(msg, cb)] },
                 none)
              else (s, some .typeError)
      | .connected, .downstreamDetach => twGo fuel s (.trans .disconnecting)
      | .disconnecting, .downstreamDetach => (s, none)
      | .disconnecting, j => ({ s with deferred := s.deferred ++ [j] }, none)
    | .trans target =>
      if s.fsm = target then (s, none)
      else
        let s0 := if s.fsm = .connected then { s with msgHandlerWired := false } else s
        let s1 := { s0 with fsm := target, visited := s0.visited ++ [target] }
        match target with
        | .disconnected =>
            if s1.respListeners + s1.postListeners > 0 then
              twGo fuel s1 (.trans .connecting)
            else (s1, none)
        | .connecting =>
            ({ s1 with
                uuidCtr := s1.uuidCtr + 1,
                channelCorrelationId := some ("twin:" ++ freshId s1.uuidCtr),
                receiverAttachCalls := s1.receiverAttachCalls + 1,
                pendingReceiverAttach := true }, none)
        | .connected =>
            let s2 := { s1 with msgHandlerWired := true }
            twGo fuel { s2 with deferred := [] } (.replay s2.deferred)
        | .disconnecting =>
            twGo fuel
              { s1 with
                  senderDetachCalls := s1.senderDetachCalls + 1,
                  pendingSenderDetach := true }
              (.trans .disconnected)
    | .replay [] => (s, none)
    | .replay (i :: rest) =>
        let r := twGo fuel s (.handle i)
        if r.2 = none then twGo fuel r.1 (.replay rest) else r

/-- An external stimulus at the twin-client boundary: the EventEmitter
`newListener`/`removeListener` hooks (a new listener fires the hook
before the count grows, a removed one after it shrank), the public
`sendTwinRequest`, the attach completions of the two links, the
downstream link's `detached` event, and the completions of the two
detach calls. -/
inductive Ev where
  | addListener (e : EventName)
  | rmListener (e : EventName)
  | callSendTwin (method resource properties body : JVal) (cb : Option Nat)
  | receiverAttachDone (err : Option Nat)
  | senderAttachDone (err : Option Nat)
  | downstreamDetached
  | senderDetachDone (err : Option Nat)
  | receiverDetachDone (err : Option Nat)
deriving DecidableEq, Repr

/-- Bump the listener count named by `e`. -/
def addCount (s : St) (e : EventName) : St :=
  match e with
  | .response => { s with respListeners := s.respListeners + 1 }
  | .post => { s with postListeners := s.postListeners + 1 }
  | .other => s

/-- Drop the listener count named by `e`. -/
def subCount (s : St) (e : EventName) : St :=
  match e with
  | .response => { s with respListeners := s.respListeners - 1 }
  | .post => { s with postListeners := s.postListeners - 1 }
  | .other => s

/-- Apply one external event.  The attach completions run the callbacks
of `connecting._onEnter` (part_000 lines 122-141): a receiver failure
runs `_handleError` (emit `error`), transitions to `disconnected` and
emits `errorReceived` with the error; a receiver success stores the
downstream link and attaches the sender; a sender failure does the same
dance but — as in the source — emits `errorReceived` with the receiver's
error, which is null in that branch; a sender success stores the
upstream link and transitions to `connected`.  `downstreamDetached` is
`_onAmqpDetached`; `senderDetachDone` runs the completion of
`detachSenderLink`, which issues `detachReceiverLink` (lines 191-199). -/
def twStep (fuel : Nat) (s : St) (e : Ev) : St × Option Thrown :=
  match e with
  | .addListener e =>
      let r := twGo fuel s (.handle (.newListener e))
      if r.2 = none then (addCount r.1 e, none) else r
  | .rmListener e =>
      twGo fuel (subCount s e) (.handle (.removeListener e))
  | .callSendTwin m rs p b cb => twGo fuel s (.handle (.sendTwin m rs p b cb))
  | .receiverAttachDone err =>
      if s.pendingReceiverAttach then
        let s1 := { s with pendingReceiverAttach := false }
        match err with
        | some e =>
            let s2 := { s1 with emitted := s1.emitted ++ [.errorEvent] }
            let r := twGo fuel s2 (.trans .disconnected)
            if r.2 = none then
              ({ r.1 with emitted := r.1.emitted ++ [.errorReceived (some e)] }, none)
            else r
        | none =>
            ({ s1 with
                downstreamLink := true,
                senderAttachCalls := s1.senderAttachCalls + 1,
                pendingSenderAttach := true }, none)
      else (s, none)
  | .senderAttachDone err =>
      if s.pendingSenderAttach then
        let s1 := { s with pendingSenderAttach := false }
        match err with
        | some _ =>
            let s2 := { s1 with emitted := s1.emitted ++ [.errorEvent] }
            let r := twGo fuel s2 (.trans .disconnected)
            if r.2 = none then
              ({ r.1 with emitted := r.1.emitted ++ [.errorReceived none] }, none)
            else r
        | none =>
            twGo fuel { s1 with upstreamLink := true } (.trans .connected)
      else (s, none)
  | .downstreamDetached =>
      if s.downstreamLink then twGo fuel s (.handle .downstreamDetach) else (s, none)
  | .senderDetachDone _ =>
      if s.pendingSenderDetach then
        ({ s with
            pendingSenderDetach := false,
            pendingReceiverDetach := true,
            receiverDetachCalls := s.receiverDetachCalls + 1 }, none)
      else (s, none)
  | .receiverDetachDone _ =>
      if s.pendingReceiverDetach then
        ({ s with pendingReceiverDetach := false }, none)
      else (s, none)

/-- Run a list of external events against the twin client. -/
def twRun (fuel : Nat) : List Ev → St → St × List (Option Thrown)
  | [], s => (s, [])
  | e :: rest, s =>
      let r := twStep fuel s e
      let rr := twRun fuel rest r.1
      (rr.1, r.2 :: rr.2)

/-- The run that decides C7: a `response` subscriber triggers connecting,
the receiver link attaches, then the sender-link attach fails. -/
def c7Trace : List Ev :=
  [.addListener .response, .receiverAttachDone none, .senderAttachDone (some 7)]

/-- C7: when the sender-link attach fails after the receiver link
attached, the machine goes straight to `disconnected` (and from its
`_onEnter` back to `connecting`, re-attaching a second receiver link):
the states entered are `[connecting, disconnected, connecting]` —
`disconnecting` is never entered — no `detachSenderLink` or
`detachReceiverLink` call is made, and the already-attached receiver
link stays attached while the sender link is down, violating the
claimed lifetime coupling.  (The run also records the source emitting
`errorReceived` with the null receiver error in this branch.) -/
theorem twin_sender_attach_failure_skips_disconnecting :
    twRun 12 c7Trace tw0 =
      (⟨.connecting, 1, 0, true, false, true, false, 2, 1, 0, 0, false, false,
        false, 2, some "twin:uuid-1", [], [],
        [.newListener .response],
        [.errorEvent, .errorReceived none],
        [.connecting, .disconnected, .connecting]⟩,
       [none, none, none]) := by
  decide

/-- C8 counterexample: `sendTwinRequest(null, "/x", \x7b\x7d, "b", done)`
on a freshly constructed (Disconnected) twin client throws nothing (the
step outcome is `none`): the falsy `method` goes unvalidated, the raw
input is deferred by the state machine until `connected`, and the
machine starts connecting — the claimed synchronous Reference error at
the API boundary does not occur in this state. -/
theorem twin_validation_not_at_boundary_when_disconnected :
    twRun 12 [.callSendTwin .vnull (.vstr "/x") (.vobj []) (.vstr "b") (some 9)] tw0 =
      (⟨.connecting, 0, 0, false, false, true, false, 1, 0, 0, 0, false, false,
        false, 1, some "twin:uuid-0", [], [],
        [.sendTwin .vnull (.vstr "/x") (.vobj []) (.vstr "b") (some 9)],
        [], [.connecting]⟩,
       [none]) := by
  decide

/-- C8 (amended): the Argument and Reference validation errors of
`send_twin_request` are raised synchronously at the API boundary exactly
when the twin client is `Connected` — the only state whose handler runs
`_sendTwinRequest` — and the throw happens before any state mutation; in
`Disconnected` the unvalidated input is deferred and the machine starts
connecting, and in `Connecting`/`Disconnecting` the unvalidated input is
deferred, with no error raised in any of the three. -/
theorem twin_validation_raised_only_in_connected (fuel : Nat) (s : St)
    (method resource properties body : JVal) (cb : Option Nat) (e : TwinErr)
    (hval : sendTwinRequestBuild method resource properties body = .error e) :
    (s.fsm = .connected →
        twGo (fuel + 1) s (.handle (.sendTwin method resource properties body cb)) =
          (s, some (.twinErr e))) ∧
    (s.fsm = .disconnected →
        twGo (fuel + 2) s (.handle (.sendTwin method resource properties body cb)) =
          ({ s with
              fsm := .connecting,
              visited := s.visited ++ [.connecting],
              deferred := s.deferred ++ [.sendTwin method resource properties body cb],
              uuidCtr := s.uuidCtr + 1,
              channelCorrelationId := some ("twin:" ++ freshId s.uuidCtr),
              receiverAttachCalls := s.receiverAttachCalls + 1,
              pendingReceiverAttach := true }, none)) ∧
    (s.fsm = .connecting →
        twGo (fuel + 1) s (.handle (.sendTwin method resource properties body cb)) =
          ({ s with
              deferred := s.deferred ++ [.sendTwin method resource properties body cb] },
           none)) ∧
    (s.fsm = .disconnecting →
        twGo (fuel + 1) s (.handle (.sendTwin method resource properties body cb)) =
          ({ s with
              deferred := s.deferred ++ [.sendTwin method resource properties body cb] },
           none)) := by
  obtain ⟨f, rl, pl, dl, ul, pra, psa, rac, sac, sdc, rdc, psd, prd, mhw,
    uc, cci, io, pus, defr, em, vis⟩ := s
  refine ⟨?_, ?_, ?_, ?_⟩
  · intro hf
    have hf' : f = .connected := hf
    subst hf'
    simp [twGo, hval]
  · intro hf
    have hf' : f = .disconnected := hf
    subst hf'
    simp [twGo, freshId]
  · intro hf
    have hf' : f = .connecting := hf
    subst hf'
    simp [twGo]
  · intro hf
    have hf' : f = .disconnecting := hf
    subst hf'
    simp [twGo]

/-- Witness for `twin_validation_raised_only_in_connected`: the fresh
(disconnected) twin client and a falsy-method request. -/
theorem twin_validation_raised_only_in_connected_witness :
    (tw0.fsm = .connected →
        twGo 3 tw0 (.handle (.sendTwin .vnull (.vstr "/x") (.vobj []) (.vstr "b") (some 9))) =
          (tw0, some (.twinErr .referenceError))) ∧
    (tw0.fsm = .disconnected →
        twGo 4 tw0 (.handle (.sendTwin .vnull (.vstr "/x") (.vobj []) (.vstr "b") (some 9))) =
          ({ tw0 with
              fsm := .connecting,
              visited := tw0.visited ++ [.connecting],
              deferred := tw0.deferred ++ [.sendTwin .vnull (.vstr "/x") (.vobj []) (.vstr "b") (some 9)],
              uuidCtr := tw0.uuidCtr + 1,
              channelCorrelationId := some ("twin:" ++ freshId tw0.uuidCtr),
              receiverAttachCalls := tw0.receiverAttachCalls + 1,
              pendingReceiverAttach := true }, none)) ∧
    (tw0.fsm = .connecting →
        twGo 3 tw0 (.handle (.sendTwin .vnull (.vstr "/x") (.vobj []) (.vstr "b") (some 9))) =
          ({ tw0 with
              deferred := tw0.deferred ++ [.sendTwin .vnull (.vstr "/x") (.vobj []) (.vstr "b") (some 9)] },
           none)) ∧
    (tw0.fsm = .disconnecting →
        twGo 3 tw0 (.handle (.sendTwin .vnull (.vstr "/x") (.vobj []) (.vstr "b") (some 9))) =
          ({ tw0 with
              deferred := tw0.deferred ++ [.sendTwin .vnull (.vstr "/x") (.vobj []) (.vstr "b") (some 9)] },
           none)) :=
  twin_validation_raised_only_in_connected 2 tw0 .vnull (.vstr "/x") (.vobj [])
    (.vstr "b") (some 9) .referenceError (by rfl)

end TwinClient
